import Mathlib

/-!
Verification of the exact Riemann solver for the LWR traffic model
(notebook function riemann_traffic_exact, in both its scalar and its
vectorized form).  Densities and the similarity coordinate are modelled
as rationals; the elementwise numpy boolean arithmetic of the vectorized
version is modelled by 0/1 indicator factors.
-/

namespace LWR

/-- Traffic flux, translated from the lambda f = q*(1-q). -/
def f (q : ℚ) : ℚ := q * (1 - q)

/-- Indicator value of a decidable proposition, modelling the numpy
booleans that the vectorized reval multiplies with rationals. -/
def b2q (p : Prop) [Decidable p] : ℚ := if p then 1 else 0

/-- First (scalar) version of riemann_traffic_exact: returns the closure
reval directly.  Shock branch when q_r > q_l, with reval giving q_l
strictly left of the shock and q_r otherwise; rarefaction branch
otherwise, with reval giving q_l left of c_l, q_r right of c_r, and
(1 - xi)/2 in between. -/
def riemann_traffic_exact_v1 (q_l q_r : ℚ) : ℚ → ℚ :=
  if q_r > q_l then
    let shock_speed := (f q_l - f q_r) / (q_l - q_r)
    fun xi => if xi < shock_speed then q_l else q_r
  else
    let c_l := 1 - 2 * q_l
    let c_r := 1 - 2 * q_r
    fun xi =>
      if xi < c_l then q_l
      else if xi > c_r then q_r
      else (1 - xi) / 2

/-- Tag for the speeds value of the second version: a one-element list
holding either the scalar shock speed or the pair of edge speeds of a
rarefaction fan. -/
inductive Speeds where
  | shock (s : ℚ)
  | rarefaction (c_l c_r : ℚ)
deriving DecidableEq

/-- Smallest wave speed carried by a Speeds value. -/
def Speeds.minSpeed : Speeds → ℚ
  | .shock s => s
  | .rarefaction c_l _ => c_l

/-- Largest wave speed carried by a Speeds value. -/
def Speeds.maxSpeed : Speeds → ℚ
  | .shock s => s
  | .rarefaction _ c_r => c_r

/-- An argument passed to the vectorized reval at run time: either a bare
scalar or an ordered sequence of coordinates. -/
inductive PyVal where
  | scalar (x : ℚ)
  | array (xs : List ℚ)
deriving DecidableEq

/-- The vectorized reval begins with len(xi); on a sequence this yields
the element list, on a bare scalar it raises a TypeError, modelled by
none. -/
def asSequence : PyVal → Option (List ℚ)
  | PyVal.scalar _ => none
  | PyVal.array xs => some xs

/-- Elementwise body of the shock-branch reval of the vectorized version:
(xi < shock_speed)*q_l + (xi >= shock_speed)*q_r. -/
def shock_profile (q_l q_r shock_speed xi : ℚ) : ℚ :=
  b2q (xi < shock_speed) * q_l + b2q (xi ≥ shock_speed) * q_r

/-- Elementwise body of the rarefaction-branch reval of the vectorized
version: (xi<=c_l)*q_l + (xi>=c_r)*q_r + (c_l<xi)*(xi<c_r)*(1-xi)/2. -/
def raref_profile (q_l q_r c_l c_r xi : ℚ) : ℚ :=
  b2q (xi ≤ c_l) * q_l + b2q (xi ≥ c_r) * q_r
    + b2q (c_l < xi) * b2q (xi < c_r) * (1 - xi) / 2

/-- Result triple (states, speeds, reval) of the second version. -/
structure TrafficSolution where
  states : List (List ℚ)
  speeds : Speeds
  reval : PyVal → Option (List ℚ)

/-- Second (vectorized) version of riemann_traffic_exact, the one in
scope after the notebook runs: returns states, speeds and the
vectorized reval closure. -/
def riemann_traffic_exact (q_l q_r : ℚ) : TrafficSolution :=
  if q_r > q_l then
    let shock_speed := (f q_l - f q_r) / (q_l - q_r)
    { states := [[q_l, q_r]]
      speeds := Speeds.shock shock_speed
      reval := fun xi =>
        (asSequence xi).map (fun v => v.map (shock_profile q_l q_r shock_speed)) }
  else
    let c_l := 1 - 2 * q_l
    let c_r := 1 - 2 * q_r
    { states := [[q_l, q_r]]
      speeds := Speeds.rarefaction c_l c_r
      reval := fun xi =>
        (asSequence xi).map (fun v => v.map (raref_profile q_l q_r c_l c_r)) }

/-- One call of the reval closure: the body only reads the captured
solution data and writes a fresh local array, so the closure after the
call is the closure before it. -/
def callReval (sol : TrafficSolution) (v : PyVal) :
    Option (List ℚ) × TrafficSolution :=
  (sol.reval v, sol)

/-- A sequence of calls of the reval closure, threading the closure
state through the calls. -/
def runCalls (sol : TrafficSolution) : List PyVal → List (Option (List ℚ)) × TrafficSolution
  | [] => ([], sol)
  | v :: vs =>
    let r := callReval sol v
    let rest := runCalls r.2 vs
    (r.1 :: rest.1, rest.2)

/-- The quotient in the shock branch simplifies: the Rankine-Hugoniot
speed for the flux q(1-q) is 1 - (q_l + q_r). -/
lemma shock_speed_eq (q_l q_r : ℚ) (h : q_l ≠ q_r) :
    (f q_l - f q_r) / (q_l - q_r) = 1 - (q_l + q_r) := by
  have h2 : q_l - q_r ≠ 0 := sub_ne_zero.mpr h
  field_simp [f]
  ring

/-- C1: for densities in the unit interval, riemann_traffic_exact
classifies by comparing the characteristic speeds 1-2q of the two
states, which compare exactly as q_r compares with q_l: a shock with
the Rankine-Hugoniot speed when q_r > q_l, otherwise a rarefaction with
speed interval from 1-2q_l to 1-2q_r. -/
theorem traffic_classification (q_l q_r : ℚ)
    (hl : 0 ≤ q_l ∧ q_l ≤ 1) (hr : 0 ≤ q_r ∧ q_r ≤ 1) :
    (1 - 2 * q_l > 1 - 2 * q_r ↔ q_r > q_l) ∧
    (q_r > q_l →
      (riemann_traffic_exact q_l q_r).speeds =
        Speeds.shock ((f q_l - f q_r) / (q_l - q_r))) ∧
    (¬ q_r > q_l →
      (riemann_traffic_exact q_l q_r).speeds =
        Speeds.rarefaction (1 - 2 * q_l) (1 - 2 * q_r)) := by
  refine ⟨⟨fun h => by linarith, fun h => by linarith⟩, fun h => ?_, fun h => ?_⟩
  · simp only [riemann_traffic_exact, if_pos h]
  · simp only [riemann_traffic_exact, if_neg h]

/-- Witness for traffic_classification at q_l = 1/5, q_r = 1. -/
theorem traffic_classification_witness :
    ((0 ≤ (1:ℚ)/5 ∧ (1:ℚ)/5 ≤ 1) ∧ (0 ≤ (1:ℚ) ∧ (1:ℚ) ≤ 1)) ∧
    ((1 - 2 * ((1:ℚ)/5) > 1 - 2 * (1:ℚ) ↔ (1:ℚ) > (1:ℚ)/5) ∧
     ((1:ℚ) > (1:ℚ)/5 →
       (riemann_traffic_exact ((1:ℚ)/5) 1).speeds =
         Speeds.shock ((f ((1:ℚ)/5) - f 1) / ((1:ℚ)/5 - 1))) ∧
     (¬ (1:ℚ) > (1:ℚ)/5 →
       (riemann_traffic_exact ((1:ℚ)/5) 1).speeds =
         Speeds.rarefaction (1 - 2 * ((1:ℚ)/5)) (1 - 2 * 1))) :=
  ⟨by constructor <;> constructor <;> norm_num,
   traffic_classification (1/5) 1 (by constructor <;> norm_num)
     (by constructor <;> norm_num)⟩

/-- C6: for every shock returned (q_r > q_l, both densities in the unit
interval), the entropy condition holds strictly: the characteristic
speed 1-2q_l on the left exceeds the shock speed, which exceeds the
characteristic speed 1-2q_r on the right. -/
theorem traffic_shock_entropy (q_l q_r : ℚ)
    (hl : 0 ≤ q_l ∧ q_l ≤ 1) (hr : 0 ≤ q_r ∧ q_r ≤ 1) (h : q_r > q_l) :
    (riemann_traffic_exact q_l q_r).speeds =
      Speeds.shock ((f q_l - f q_r) / (q_l - q_r)) ∧
    1 - 2 * q_l > (f q_l - f q_r) / (q_l - q_r) ∧
    (f q_l - f q_r) / (q_l - q_r) > 1 - 2 * q_r := by
  have hne : q_l ≠ q_r := ne_of_lt h
  have hs := shock_speed_eq q_l q_r hne
  refine ⟨by simp only [riemann_traffic_exact, if_pos h], ?_, ?_⟩ <;>
    rw [hs] <;> linarith

/-- Witness for traffic_shock_entropy at q_l = 1/5, q_r = 3/5. -/
theorem traffic_shock_entropy_witness :
    ((0 ≤ (1:ℚ)/5 ∧ (1:ℚ)/5 ≤ 1) ∧ (0 ≤ (3:ℚ)/5 ∧ (3:ℚ)/5 ≤ 1) ∧
      (3:ℚ)/5 > (1:ℚ)/5) ∧
    ((riemann_traffic_exact ((1:ℚ)/5) ((3:ℚ)/5)).speeds =
       Speeds.shock ((f ((1:ℚ)/5) - f ((3:ℚ)/5)) / ((1:ℚ)/5 - (3:ℚ)/5)) ∧
     1 - 2 * ((1:ℚ)/5) > (f ((1:ℚ)/5) - f ((3:ℚ)/5)) / ((1:ℚ)/5 - (3:ℚ)/5) ∧
     (f ((1:ℚ)/5) - f ((3:ℚ)/5)) / ((1:ℚ)/5 - (3:ℚ)/5) > 1 - 2 * ((3:ℚ)/5)) :=
  ⟨by norm_num,
   traffic_shock_entropy (1/5) (3/5) (by norm_num) (by norm_num) (by norm_num)⟩

/-- C8: red light: for q_r = 1 and any 0 ≤ q_l < 1 the solver returns a
shock with speed exactly -q_l; in particular for q_l = 1/5 the shock
speed is -1/5, a left-moving shock. -/
theorem traffic_red_light (q_l : ℚ) (h0 : 0 ≤ q_l) (h1 : q_l < 1) :
    (riemann_traffic_exact q_l 1).speeds = Speeds.shock (-q_l) ∧
    (riemann_traffic_exact ((1:ℚ)/5) 1).speeds = Speeds.shock (-((1:ℚ)/5)) ∧
    -((1:ℚ)/5) < 0 := by
  have hgt : (1:ℚ) > q_l := h1
  have hv : (f q_l - f 1) / (q_l - 1) = -q_l := by
    rw [shock_speed_eq q_l 1 (ne_of_lt h1)]; ring
  have h2 : (f ((1:ℚ)/5) - f 1) / ((1:ℚ)/5 - 1) = -((1:ℚ)/5) := by
    rw [shock_speed_eq ((1:ℚ)/5) 1 (by norm_num)]; norm_num
  refine ⟨?_, ?_, by norm_num⟩
  · simp only [riemann_traffic_exact, if_pos hgt]
    rw [hv]
  · simp only [riemann_traffic_exact,
      if_pos (show (1:ℚ) > (1:ℚ)/5 by norm_num)]
    rw [h2]

/-- Witness for traffic_red_light at q_l = 1/5. -/
theorem traffic_red_light_witness :
    (0 ≤ (1:ℚ)/5 ∧ (1:ℚ)/5 < 1) ∧
    ((riemann_traffic_exact ((1:ℚ)/5) 1).speeds = Speeds.shock (-((1:ℚ)/5)) ∧
     (riemann_traffic_exact ((1:ℚ)/5) 1).speeds = Speeds.shock (-((1:ℚ)/5)) ∧
     -((1:ℚ)/5) < 0) :=
  ⟨by norm_num, traffic_red_light (1/5) (by norm_num) (by norm_num)⟩

/-- C5: whenever the solver returns a shock (q_r > q_l), both versions
of the evaluate function are right-continuous at the shock: at xi equal
to the shock speed the value is the right state q_r. -/
theorem traffic_shock_right_continuous (q_l q_r : ℚ) (h : q_r > q_l) :
    (riemann_traffic_exact q_l q_r).reval
        (PyVal.array [(f q_l - f q_r) / (q_l - q_r)]) = some [q_r] ∧
    riemann_traffic_exact_v1 q_l q_r ((f q_l - f q_r) / (q_l - q_r)) = q_r := by
  constructor
  · simp only [riemann_traffic_exact, if_pos h]
    simp [asSequence, shock_profile, b2q]
  · simp only [riemann_traffic_exact_v1, if_pos h]
    simp

/-- Witness for traffic_shock_right_continuous at q_l = 1/5, q_r = 1. -/
theorem traffic_shock_right_continuous_witness :
    ((1:ℚ) > (1:ℚ)/5) ∧
    ((riemann_traffic_exact ((1:ℚ)/5) 1).reval
        (PyVal.array [(f ((1:ℚ)/5) - f 1) / ((1:ℚ)/5 - 1)]) = some [1] ∧
     riemann_traffic_exact_v1 ((1:ℚ)/5) 1
        ((f ((1:ℚ)/5) - f 1) / ((1:ℚ)/5 - 1)) = 1) :=
  ⟨by norm_num, traffic_shock_right_continuous (1/5) 1 (by norm_num)⟩

/-- C3: in the rarefaction case (q_r ≤ q_l, both in the unit interval),
for xi strictly between the edge speeds 1-2q_l and 1-2q_r the evaluate
function gives exactly (1-xi)/2; and for the green-light data q_l = 1,
q_r = 0 the solution is a single rarefaction spanning -1 ≤ xi ≤ 1 with
evaluate(0) = 1/2. -/
theorem traffic_raref_interior (q_l q_r xi : ℚ) (hq : q_r ≤ q_l)
    (hl : 0 ≤ q_l ∧ q_l ≤ 1) (hr : 0 ≤ q_r ∧ q_r ≤ 1)
    (h1 : 1 - 2 * q_l < xi) (h2 : xi < 1 - 2 * q_r) :
    (riemann_traffic_exact q_l q_r).reval (PyVal.array [xi]) =
      some [(1 - xi) / 2] ∧
    (riemann_traffic_exact 1 0).speeds = Speeds.rarefaction (-1) 1 ∧
    (riemann_traffic_exact 1 0).reval (PyVal.array [0]) = some [1/2] := by
  have hng : ¬ q_r > q_l := not_lt.mpr hq
  have e1 : ¬ xi ≤ 1 - 2 * q_l := not_le.mpr h1
  have e2 : ¬ 1 - 2 * q_r ≤ xi := not_le.mpr h2
  refine ⟨?_,
    by norm_num [riemann_traffic_exact, asSequence, raref_profile, b2q],
    by norm_num [riemann_traffic_exact, asSequence, raref_profile, b2q]⟩
  simp only [riemann_traffic_exact, if_neg hng]
  simp [asSequence, raref_profile, b2q, e1, e2, h1, h2]

/-- Witness for traffic_raref_interior at q_l = 1, q_r = 0, xi = 0. -/
theorem traffic_raref_interior_witness :
    ((0:ℚ) ≤ 1 ∧ (0 ≤ (1:ℚ) ∧ (1:ℚ) ≤ 1) ∧ (0 ≤ (0:ℚ) ∧ (0:ℚ) ≤ 1) ∧
      1 - 2 * (1:ℚ) < 0 ∧ (0:ℚ) < 1 - 2 * 0) ∧
    ((riemann_traffic_exact 1 0).reval (PyVal.array [0]) =
       some [(1 - (0:ℚ)) / 2] ∧
     (riemann_traffic_exact 1 0).speeds = Speeds.rarefaction (-1) 1 ∧
     (riemann_traffic_exact 1 0).reval (PyVal.array [0]) = some [1/2]) :=
  ⟨by norm_num,
   traffic_raref_interior 1 0 0 (by norm_num) (by norm_num) (by norm_num)
     (by norm_num) (by norm_num)⟩

/-- C4: for densities in the unit interval, the evaluate function of the
returned solution is exactly q_l strictly below the smallest wave speed
and exactly q_r strictly above the largest wave speed. -/
theorem traffic_outer_states (q_l q_r xi : ℚ)
    (hl : 0 ≤ q_l ∧ q_l ≤ 1) (hr : 0 ≤ q_r ∧ q_r ≤ 1) :
    (xi < (riemann_traffic_exact q_l q_r).speeds.minSpeed →
      (riemann_traffic_exact q_l q_r).reval (PyVal.array [xi]) = some [q_l]) ∧
    ((riemann_traffic_exact q_l q_r).speeds.maxSpeed < xi →
      (riemann_traffic_exact q_l q_r).reval (PyVal.array [xi]) = some [q_r]) := by
  by_cases h : q_r > q_l
  · simp only [riemann_traffic_exact, if_pos h]
    constructor
    · intro hx
      simp only [Speeds.minSpeed] at hx
      simp [asSequence, shock_profile, b2q, hx, not_le.mpr hx]
    · intro hx
      simp only [Speeds.maxSpeed] at hx
      simp [asSequence, shock_profile, b2q, le_of_lt hx,
        not_lt.mpr (le_of_lt hx)]
  · have hq : q_r ≤ q_l := not_lt.mp h
    have hcc : 1 - 2 * q_l ≤ 1 - 2 * q_r := by linarith
    simp only [riemann_traffic_exact, if_neg h]
    constructor
    · intro hx
      simp only [Speeds.minSpeed] at hx
      have k1 : xi ≤ 1 - 2 * q_l := le_of_lt hx
      have k2 : ¬ 1 - 2 * q_r ≤ xi := not_le.mpr (lt_of_lt_of_le hx hcc)
      have k3 : ¬ 1 - 2 * q_l < xi := not_lt.mpr k1
      simp [asSequence, raref_profile, b2q, k1, k2, k3]
    · intro hx
      simp only [Speeds.maxSpeed] at hx
      have k1 : ¬ xi ≤ 1 - 2 * q_l := not_le.mpr (lt_of_le_of_lt hcc hx)
      have k2 : 1 - 2 * q_r ≤ xi := le_of_lt hx
      have k3 : ¬ xi < 1 - 2 * q_r := not_lt.mpr k2
      simp [asSequence, raref_profile, b2q, k1, k2, k3]

/-- Witness for traffic_outer_states at q_l = 2/5, q_r = 1/5, xi = 0. -/
theorem traffic_outer_states_witness :
    ((0 ≤ (2:ℚ)/5 ∧ (2:ℚ)/5 ≤ 1) ∧ (0 ≤ (1:ℚ)/5 ∧ (1:ℚ)/5 ≤ 1)) ∧
    (((0:ℚ) < (riemann_traffic_exact ((2:ℚ)/5) ((1:ℚ)/5)).speeds.minSpeed →
       (riemann_traffic_exact ((2:ℚ)/5) ((1:ℚ)/5)).reval (PyVal.array [0]) =
         some [(2:ℚ)/5]) ∧
     ((riemann_traffic_exact ((2:ℚ)/5) ((1:ℚ)/5)).speeds.maxSpeed < (0:ℚ) →
       (riemann_traffic_exact ((2:ℚ)/5) ((1:ℚ)/5)).reval (PyVal.array [0]) =
         some [(1:ℚ)/5])) :=
  ⟨by norm_num,
   traffic_outer_states ((2:ℚ)/5) ((1:ℚ)/5) 0 (by norm_num) (by norm_num)⟩

/-- C2 (code flaw): at the degenerate data q_l = q_r = 1/2 the two edge
speeds coincide at 0, both boundary indicators of the vectorized reval
fire at xi = 0, and their contributions add: evaluate(0) is 1 = 2*q_l,
not the constant value 1/2; away from that point the value is the
constant 1/2. -/
theorem traffic_degenerate_double_count :
    (riemann_traffic_exact ((1:ℚ)/2) ((1:ℚ)/2)).reval (PyVal.array [0]) =
      some [1] ∧
    (riemann_traffic_exact ((1:ℚ)/2) ((1:ℚ)/2)).speeds =
      Speeds.rarefaction 0 0 ∧
    (riemann_traffic_exact ((1:ℚ)/2) ((1:ℚ)/2)).reval (PyVal.array [1]) =
      some [1/2] := by
  refine ⟨?_, ?_, ?_⟩ <;>
    norm_num [riemann_traffic_exact, asSequence, raref_profile, b2q]

/-- C7 counterexample: the evaluate function of the final
riemann_traffic_exact begins by taking len(xi), so a bare scalar
argument is rejected rather than handled. -/
theorem traffic_reval_scalar_rejected :
    (riemann_traffic_exact ((1:ℚ)/5) 1).reval (PyVal.scalar 0) = none := by
  norm_num [riemann_traffic_exact, asSequence]

/-- C7 amended: the evaluate function of the final riemann_traffic_exact
accepts an ordered sequence of coordinates and returns a sequence of the
same length (correspondingly shaped output); only sequences are
accepted. -/
theorem traffic_reval_shape (q_l q_r : ℚ) (xs : List ℚ) :
    ∃ ys : List ℚ,
      (riemann_traffic_exact q_l q_r).reval (PyVal.array xs) = some ys ∧
      ys.length = xs.length := by
  by_cases h : q_r > q_l
  · refine ⟨xs.map (shock_profile q_l q_r ((f q_l - f q_r) / (q_l - q_r))),
      ?_, by simp⟩
    simp only [riemann_traffic_exact, if_pos h]
    simp [asSequence]
  · refine ⟨xs.map (raref_profile q_l q_r (1 - 2 * q_l) (1 - 2 * q_r)),
      ?_, by simp⟩
    simp only [riemann_traffic_exact, if_neg h]
    simp [asSequence]

/-- Any sequence of calls of the closure returns the pointwise reval
values and leaves the closure unchanged. -/
lemma runCalls_spec (sol : TrafficSolution) (vs : List PyVal) :
    runCalls sol vs = (vs.map sol.reval, sol) := by
  induction vs with
  | nil => rfl
  | cons v vs ih => simp [runCalls, callReval, ih]

/-- C9: the evaluate closure is deterministic and stateless: over any
sequence of calls each result is determined by the captured solution
data alone, calling twice on the same argument gives equal results, and
the solution (states, speeds, captured data) is unchanged afterwards. -/
theorem traffic_reval_stateless (q_l q_r : ℚ) (vs : List PyVal) (v : PyVal) :
    (runCalls (riemann_traffic_exact q_l q_r) vs).1 =
      vs.map (riemann_traffic_exact q_l q_r).reval ∧
    (runCalls (riemann_traffic_exact q_l q_r) vs).2 =
      riemann_traffic_exact q_l q_r ∧
    (runCalls (riemann_traffic_exact q_l q_r) [v, v]).1 =
      [(riemann_traffic_exact q_l q_r).reval v,
       (riemann_traffic_exact q_l q_r).reval v] := by
  refine ⟨?_, ?_, ?_⟩ <;> simp [runCalls_spec]

/-- The elementwise shock formula of the vectorized version coincides
with the branching of the scalar version. -/
lemma shock_profile_cases (q_l q_r s xi : ℚ) :
    shock_profile q_l q_r s xi = if xi < s then q_l else q_r := by
  by_cases hx : xi < s
  · simp [shock_profile, b2q, hx, not_le.mpr hx]
  · simp [shock_profile, b2q, hx, not_lt.mp hx]

/-- The elementwise rarefaction formula of the vectorized version
coincides with the branching of the scalar version when q_r < q_l. -/
lemma raref_profile_cases (q_l q_r xi : ℚ) (hlt : q_r < q_l) :
    raref_profile q_l q_r (1 - 2 * q_l) (1 - 2 * q_r) xi =
      (if xi < 1 - 2 * q_l then q_l
       else if xi > 1 - 2 * q_r then q_r else (1 - xi) / 2) := by
  have hab : 1 - 2 * q_l < 1 - 2 * q_r := by linarith
  have k2 : ¬ 1 - 2 * q_r ≤ 1 - 2 * q_l := not_le.mpr hab
  have k3 : ¬ 1 - 2 * q_r < 1 - 2 * q_l := not_lt.mpr (le_of_lt hab)
  rcases lt_trichotomy xi (1 - 2 * q_l) with hx | hx | hx
  · have m2 : ¬ 1 - 2 * q_r ≤ xi := by linarith
    simp [raref_profile, b2q, hx, le_of_lt hx, not_lt.mpr (le_of_lt hx), m2]
  · subst hx
    simp [raref_profile, b2q, lt_irrefl, k2, k3, le_refl]
  · rcases lt_trichotomy xi (1 - 2 * q_r) with hx2 | hx2 | hx2
    · simp [raref_profile, b2q, hx, hx2, not_le.mpr hx, not_le.mpr hx2,
        not_lt.mpr (le_of_lt hx), not_lt.mpr (le_of_lt hx2)]
    · subst hx2
      simp [raref_profile, b2q, hab, k2, lt_irrefl, k3, le_refl]
    · have m1 : ¬ xi ≤ 1 - 2 * q_l := not_le.mpr hx
      simp [raref_profile, b2q, m1, le_of_lt hx2, not_lt.mpr (le_of_lt hx2),
        hx, not_lt.mpr (le_of_lt hx), hx2]

/-- C10: for q_l ≠ q_r in the unit interval the scalar version and the
vectorized redefinition agree pointwise: at every xi the vectorized
reval on the one-point sequence returns exactly the scalar reval value,
their differing boundary comparisons notwithstanding. -/
theorem traffic_versions_agree (q_l q_r xi : ℚ) (hne : q_l ≠ q_r)
    (hl : 0 ≤ q_l ∧ q_l ≤ 1) (hr : 0 ≤ q_r ∧ q_r ≤ 1) :
    (riemann_traffic_exact q_l q_r).reval (PyVal.array [xi]) =
      some [riemann_traffic_exact_v1 q_l q_r xi] := by
  by_cases h : q_r > q_l
  · simp only [riemann_traffic_exact, riemann_traffic_exact_v1, if_pos h]
    simp [asSequence, shock_profile_cases]
  · have hlt : q_r < q_l := lt_of_le_of_ne (not_lt.mp h) (Ne.symm hne)
    simp only [riemann_traffic_exact, riemann_traffic_exact_v1, if_neg h]
    simp [asSequence, raref_profile_cases q_l q_r xi hlt]

/-- Witness for traffic_versions_agree at q_l = 2/5, q_r = 1/5, xi = 0. -/
theorem traffic_versions_agree_witness :
    ((2:ℚ)/5 ≠ (1:ℚ)/5 ∧ (0 ≤ (2:ℚ)/5 ∧ (2:ℚ)/5 ≤ 1) ∧
      (0 ≤ (1:ℚ)/5 ∧ (1:ℚ)/5 ≤ 1)) ∧
    (riemann_traffic_exact ((2:ℚ)/5) ((1:ℚ)/5)).reval (PyVal.array [0]) =
      some [riemann_traffic_exact_v1 ((2:ℚ)/5) ((1:ℚ)/5) 0] :=
  ⟨by norm_num,
   traffic_versions_agree ((2:ℚ)/5) ((1:ℚ)/5) 0 (by norm_num) (by norm_num)
     (by norm_num)⟩

end LWR
